import Mathlib

/-!
Verification of the identifier/keyword disambiguation core of an
ECMAScript/TypeScript recursive-descent parser
(`crates/swc_ecma_parser/src/parser/ident.rs`).

The embedding models the decision procedure of `parse_ident`,
`parse_ident_name`, `parse_private_name` and `parse_module_export_name`
as pure functions of the classified current token and the parser context,
returning the resolved text (or a fatal error) together with the
diagnostics recorded on the two sink channels (`emit_err`, the
unconditional channel, and `emit_strict_mode_err`, the deferred
strict-mode channel).
-/

namespace Ident

/-- Keyword kinds of the lexer's closed `Keyword` enumeration.
Modelled from the spec: the lexer itself is outside the source excerpt;
the enumeration lists the ECMAScript reserved words, matching the kinds
`ident.rs` pattern-matches on (`Await`, `Yield`, `Let`, `This`) plus the
ordinary reserved words. Contextual words such as `static` or `enum`
arrive as `Ident`-classified tokens, exactly as `ident.rs` matches them. -/
inductive Keyword where
  | Await | Break | Case | Catch | Class | Const | Continue | Debugger
  | Default | Delete | Do | Else | Export | Extends | Finally | For
  | Function | If | Import | In | InstanceOf | Let | New | Return
  | Super | Switch | This | Throw | Try | TypeOf | Var | Void
  | While | With | Yield
  deriving DecidableEq, Repr

/-- Textual form of a keyword (`Keyword::into_atom` on the lexer side).
Modelled from the spec: each keyword kind's text is the word itself. -/
def Keyword.intoAtom : Keyword → String
  | .Await => "await" | .Break => "break" | .Case => "case"
  | .Catch => "catch" | .Class => "class" | .Const => "const"
  | .Continue => "continue" | .Debugger => "debugger"
  | .Default => "default" | .Delete => "delete" | .Do => "do"
  | .Else => "else" | .Export => "export" | .Extends => "extends"
  | .Finally => "finally" | .For => "for" | .Function => "function"
  | .If => "if" | .Import => "import" | .In => "in"
  | .InstanceOf => "instanceof" | .Let => "let" | .New => "new"
  | .Return => "return" | .Super => "super" | .Switch => "switch"
  | .This => "this" | .Throw => "throw" | .Try => "try"
  | .TypeOf => "typeof" | .Var => "var" | .Void => "void"
  | .While => "while" | .With => "with" | .Yield => "yield"

/-- Classified word token (`Word` in the lexer): a plain identifier with
its text (`Word::Ident`, covering both `IdentLike` variants, which
`ident.rs` only ever inspects through their text via `ident_like!` and
atom comparison), a keyword, or one of the three literal words. -/
inductive Word where
  | ident (text : String)
  | keyword (k : Keyword)
  | wNull
  | wTrue
  | wFalse
  deriving DecidableEq, Repr

/-- Text carried by a word token (the `From<Word> for Atom` conversion
used by `w.into()` in `parse_ident_name`).
Modelled from the spec: an identifier-name resolves to the token's own
text. -/
def Word.text : Word → String
  | .ident t => t
  | .keyword k => k.intoAtom
  | .wNull => "null"
  | .wTrue => "true"
  | .wFalse => "false"

/-- Current token as seen by the entry points of `ident.rs`: a word, a
JSX name (eligible only in type position), a string literal (for module
export names), a numeric literal, or any other non-identifier-shaped
token. -/
inductive Token where
  | word (w : Word)
  | jsxName (name : String)
  | str (value : String)
  | num (value : Int)
  | other
  deriving DecidableEq, Repr

/-- Context flags read by `ident.rs` (`Context::InGenerator` etc. of the
bitflag set, rendered as a record of booleans). -/
structure Context where
  inGenerator : Bool
  inAsync : Bool
  module : Bool
  inDeclare : Bool
  inStaticBlock : Bool
  inClassField : Bool
  inType : Bool
  deriving DecidableEq, Repr

/-- Context with every flag cleared. -/
def Context.empty : Context :=
  ⟨false, false, false, false, false, false, false⟩

/-- Diagnostic kinds produced by the code paths of `ident.rs`. -/
inductive SynErr where
  | expectedIdent
  | invalidIdentInStrict (word : String)
  | invalidIdentInAsync
  | argumentsInClassField
  | spaceBetweenHashAndIdent
  | unexpectedToken (expected : String)
  deriving DecidableEq, Repr

/-- Diagnostics recorded on the sink during one call: `errors` is the
unconditional channel (`emit_err`), `strictModeErrors` the deferred
strict-mode channel (`emit_strict_mode_err`), per the spec's Diagnostic
Sink description (the sink itself is outside the source excerpt). -/
structure Emitted where
  errors : List SynErr
  strictModeErrors : List SynErr
  deriving DecidableEq, Repr

/-- Empty diagnostic record: a code path containing no emit call. -/
def Emitted.none : Emitted := ⟨[], []⟩

/-- Pass 1 of `parse_ident`: the strict-mode-restricted word detection
match. `enum` (an `Ident`-classified token) goes through `emit_err`;
the `Yield`/`Let` keywords and the seven `Ident`-classified contextual
words go through `emit_strict_mode_err`; everything else emits nothing. -/
def strictModePass (w : Word) : Emitted :=
  match w with
  | .ident t =>
    if t = "enum" then ⟨[.invalidIdentInStrict t], []⟩
    else if t = "static" ∨ t = "implements" ∨ t = "interface" ∨
        t = "package" ∨ t = "private" ∨ t = "protected" ∨ t = "public" then
      ⟨[], [.invalidIdentInStrict t]⟩
    else Emitted.none
  | .keyword .Yield => ⟨[], [.invalidIdentInStrict Keyword.Yield.intoAtom]⟩
  | .keyword .Let => ⟨[], [.invalidIdentInStrict Keyword.Let.intoAtom]⟩
  | _ => Emitted.none

/-- Pass 2 of `parse_ident`: the acceptability match, in the source's
arm order. `typescript` is `self.input.syntax().typescript()`, the
global syntax-mode flag. Returns the resolution result together with
the unconditional diagnostics this pass emits (the
`arguments`-in-class-field case). -/
def resolveWord (typescript : Bool) (ctx : Context)
    (inclYield inclAwait : Bool) (w : Word) :
    Except SynErr String × List SynErr :=
  match w with
  | .keyword .Await =>
    if ctx.inDeclare then (.ok "await", [])
    else if ctx.inStaticBlock then (.error .expectedIdent, [])
    else if ctx.module ∨ ctx.inAsync then (.error .invalidIdentInAsync, [])
    else if inclAwait then (.ok "await", [])
    else (.error .expectedIdent, [])
  | .keyword .This =>
    if typescript then (.ok "this", [])
    else (.error .expectedIdent, [])
  | .keyword .Let => (.ok "let", [])
  | .ident t =>
    if ctx.inClassField ∧ t = "arguments" then (.ok t, [.argumentsInClassField])
    else (.ok t, [])
  | .keyword .Yield =>
    if inclYield then (.ok "yield", [])
    else (.error .expectedIdent, [])
  | _ => (.error .expectedIdent, [])

/-- Identifier resolver `parse_ident(incl_yield, incl_await)` on a word
token: Pass 1 always runs (its diagnostics are recorded even when Pass 2
fails or succeeds), then Pass 2 decides acceptance. A non-word current
token fails with `ExpectedIdent` before either pass; that case is the
`Token`-level wrapper below. -/
def parse_ident (typescript : Bool) (ctx : Context)
    (inclYield inclAwait : Bool) (w : Word) :
    Except SynErr String × Emitted :=
  let e1 := strictModePass w
  let r := resolveWord typescript ctx inclYield inclAwait w
  (r.1, ⟨e1.errors ++ r.2, e1.strictModeErrors⟩)

/-- Identifier resolver at the token level: `parse_ident` consumes only
`Token::Word(..)`; any other token shape is fatal `ExpectedIdent`. -/
def parse_ident_tok (typescript : Bool) (ctx : Context)
    (inclYield inclAwait : Bool) (tok : Token) :
    Except SynErr String × Emitted :=
  match tok with
  | .word w => parse_ident typescript ctx inclYield inclAwait w
  | _ => (.error .expectedIdent, Emitted.none)

/-- IdentifierName parsing (`parse_ident_name`): any word token resolves
to its text; a JSX-name token resolves to its name only when
`Context::InType` is set; every other shape is fatal `ExpectedIdent`.
No diagnostic is emitted on any path. -/
def parse_ident_name (inType : Bool) (tok : Token) :
    Except SynErr String × Emitted :=
  match tok with
  | .word w => (.ok w.text, Emitted.none)
  | .jsxName n =>
    if inType then (.ok n, Emitted.none)
    else (.error .expectedIdent, Emitted.none)
  | _ => (.error .expectedIdent, Emitted.none)

/-- Private name: resolved text of the name token. Spans are out of
scope for this core. -/
structure PrivateName where
  name : String
  deriving DecidableEq, Repr

/-- Private-name parsing (`parse_private_name`), entered after the `#`
sigil has been matched and bumped. `gap` is
`self.input.cur_pos() - hash_end`: the byte distance between the end of
the `#` token and the start of the following token. A nonzero gap is
fatal `SpaceBetweenHashAndIdent` before the name token is consumed;
otherwise the name is read through `parse_ident_name`. -/
def parse_private_name (inType : Bool) (gap : Nat) (tok : Token) :
    Except SynErr PrivateName × Emitted :=
  if gap ≠ 0 then (.error .spaceBetweenHashAndIdent, Emitted.none)
  else
    let r := parse_ident_name inType tok
    (r.1.map fun s => ⟨s⟩, r.2)

/-- Module export name result (`ModuleExportName`): string-literal
variant or identifier variant. -/
inductive ModuleExportName where
  | strName (value : String)
  | identName (text : String)
  deriving DecidableEq, Repr

/-- Module export name parsing (`parse_module_export_name`): a string
literal parses as the string variant (the literal parser is outside the
source excerpt; modelled from the spec as returning the literal's
value); a word token goes through `parse_ident_name` and wraps as the
identifier variant; any other token shape is fatal
"Unexpected token, expected identifier or string". -/
def parse_module_export_name (inType : Bool) (tok : Token) :
    Except SynErr ModuleExportName × Emitted :=
  match tok with
  | .str v => (.ok (.strName v), Emitted.none)
  | .word _ =>
    let r := parse_ident_name inType tok
    (r.1.map .identName, r.2)
  | _ => (.error (.unexpectedToken "identifier or string"), Emitted.none)

/-- IdentifierReference parsing (`parse_ident_ref`): `parse_ident` with
the permissions derived from the negation of `InGenerator`/`InAsync`. -/
def parse_ident_ref (typescript : Bool) (ctx : Context) (tok : Token) :
    Except SynErr String × Emitted :=
  parse_ident_tok typescript ctx (!ctx.inGenerator) (!ctx.inAsync) tok

/-- C1: whenever `Context.InDeclare` is set, `parse_ident` on the
keyword token `await` succeeds and resolves to the text "await", with
no diagnostic, for every value of `Module`, `InAsync`, `InStaticBlock`,
the TypeScript flag and both permissions: the `InDeclare` arm is the
first `await` arm checked. -/
theorem c1_await_in_declare (typescript : Bool) (ctx : Context)
    (inclYield inclAwait : Bool) (h : ctx.inDeclare = true) :
    parse_ident typescript ctx inclYield inclAwait (.keyword .Await) =
      (.ok "await", Emitted.none) := by
  simp [parse_ident, strictModePass, resolveWord, h, Emitted.none]

/-- Witness for C1 at a context with every other flag set and both
permissions denied. -/
theorem c1_await_in_declare_witness :
    parse_ident true ⟨true, true, true, true, true, true, true⟩
      false false (.keyword .Await) = (.ok "await", Emitted.none) :=
  c1_await_in_declare true ⟨true, true, true, true, true, true, true⟩
    false false rfl

/-- C2: with `InDeclare` clear, `parse_ident` on the keyword token
`await` is fatal with `ExpectedIdent` when `InStaticBlock` is set, and
otherwise fatal with `InvalidIdentInAsync` when `Module` or `InAsync`
is set, regardless of `allow_await`. -/
theorem c2_await_fatal (typescript : Bool) (ctx : Context)
    (inclYield inclAwait : Bool) (h : ctx.inDeclare = false) :
    (ctx.inStaticBlock = true →
      parse_ident typescript ctx inclYield inclAwait (.keyword .Await) =
        (.error .expectedIdent, Emitted.none)) ∧
    (ctx.inStaticBlock = false → (ctx.module = true ∨ ctx.inAsync = true) →
      parse_ident typescript ctx inclYield inclAwait (.keyword .Await) =
        (.error .invalidIdentInAsync, Emitted.none)) := by
  constructor
  · intro hs
    simp [parse_ident, strictModePass, resolveWord, h, hs, Emitted.none]
  · intro hs hma
    simp [parse_ident, strictModePass, resolveWord, h, hs, hma, Emitted.none]

/-- Witness for C2: a static-block context and a module context, both
with `allow_await` granted. -/
theorem c2_await_fatal_witness :
    parse_ident false ⟨false, false, false, false, true, false, false⟩
      true true (.keyword .Await) = (.error .expectedIdent, Emitted.none) ∧
    parse_ident false ⟨false, false, true, false, false, false, false⟩
      true true (.keyword .Await) = (.error .invalidIdentInAsync, Emitted.none) :=
  ⟨(c2_await_fatal false ⟨false, false, false, false, true, false, false⟩
      true true rfl).1 rfl,
   (c2_await_fatal false ⟨false, false, true, false, false, false, false⟩
      true true rfl).2 rfl (Or.inl rfl)⟩

/-- C4 amended: `parse_ident` on the keyword token `this` succeeds with
the text "this" exactly when the global TypeScript syntax flag is
enabled, regardless of every `Context` flag (`InType` included), and
emits no diagnostic; otherwise it is fatal with `ExpectedIdent`. -/
theorem c4_this_typescript (typescript : Bool) (ctx : Context)
    (inclYield inclAwait : Bool) :
    parse_ident typescript ctx inclYield inclAwait (.keyword .This) =
      ((if typescript then .ok "this" else .error .expectedIdent),
        Emitted.none) := by
  cases typescript <;>
    simp [parse_ident, strictModePass, resolveWord, Emitted.none]

/-- C4 counterexample: with TypeScript syntax enabled but `InType`
false (not a type-annotation position), `this` still resolves, so
acceptance is not governed by the type-annotation position. -/
theorem c4_this_counterexample :
    Context.empty.inType = false ∧
    (parse_ident true Context.empty true true (.keyword .This)).1 =
      .ok "this" :=
  ⟨rfl, rfl⟩

/-- C5: `parse_ident` on the keyword token `let` always succeeds with
the text "let" and records exactly one deferred strict-mode diagnostic
for the word "let", for every context and permissions. -/
theorem c5_let_flagged_and_accepted (typescript : Bool) (ctx : Context)
    (inclYield inclAwait : Bool) :
    parse_ident typescript ctx inclYield inclAwait (.keyword .Let) =
      (.ok "let", ⟨[], [.invalidIdentInStrict "let"]⟩) := by
  simp [parse_ident, strictModePass, resolveWord, Keyword.intoAtom]

/-- C10: `parse_ident_name` accepts a JSX-name token, resolving to its
text, exactly when `Context.InType` is set; otherwise it is fatal with
`ExpectedIdent`. No diagnostic is emitted either way. -/
theorem c10_jsx_name_in_type (inType : Bool) (n : String) :
    parse_ident_name inType (.jsxName n) =
      ((if inType then .ok n else .error .expectedIdent), Emitted.none) := by
  cases inType <;> simp [parse_ident_name]

/-- Pass 2 never emits an `InvalidIdentInStrict` diagnostic: its only
emission is the `ArgumentsInClassField` case. -/
lemma invalidIdentInStrict_not_mem_resolveWord (typescript : Bool)
    (ctx : Context) (inclYield inclAwait : Bool) (w : Word) (u : String) :
    SynErr.invalidIdentInStrict u ∉
      (resolveWord typescript ctx inclYield inclAwait w).2 := by
  cases w with
  | ident t =>
    simp only [resolveWord]
    split <;> simp
  | keyword k =>
    cases k <;> simp only [resolveWord] <;> (try split_ifs) <;> simp
  | wNull => simp [resolveWord]
  | wTrue => simp [resolveWord]
  | wFalse => simp [resolveWord]

/-- C3 counterexample: `parse_ident` on the identifier-classified token
`enum` resolves successfully, yet the deferred strict-mode channel is
empty — the `InvalidIdentInStrict` diagnostic for `enum` is recorded on
the unconditional channel (`emit_err`) instead, contradicting the claim
that every listed word yields exactly one deferred strict-mode
diagnostic. -/
theorem c3_enum_counterexample :
    (parse_ident false Context.empty true true (.ident "enum")).1 =
      .ok "enum" ∧
    (parse_ident false Context.empty true true
      (.ident "enum")).2.strictModeErrors = [] ∧
    (parse_ident false Context.empty true true (.ident "enum")).2.errors =
      [.invalidIdentInStrict "enum"] :=
  ⟨rfl, rfl, rfl⟩

/-- C3 amended: on a successful resolution, each of the keyword tokens
`yield` and `let` and the identifier-classified words `static`,
`implements`, `interface`, `package`, `private`, `protected`, `public`
records exactly one deferred strict-mode `InvalidIdentInStrict`
diagnostic carrying the token's own text; `enum` records exactly one
`InvalidIdentInStrict` diagnostic carrying its own text on the
unconditional channel instead of the deferred one; no other token
classification produces a Pass-1 diagnostic. -/
theorem c3_strict_mode_pass (typescript : Bool) (ctx : Context)
    (inclYield inclAwait : Bool) (w : Word) (s : String)
    (hok : (parse_ident typescript ctx inclYield inclAwait w).1 = .ok s) :
    ((w = .keyword .Yield ∨ w = .keyword .Let ∨ w = .ident "static" ∨
        w = .ident "implements" ∨ w = .ident "interface" ∨
        w = .ident "package" ∨ w = .ident "private" ∨
        w = .ident "protected" ∨ w = .ident "public") →
      (parse_ident typescript ctx inclYield inclAwait
          w).2.strictModeErrors = [.invalidIdentInStrict w.text]) ∧
    (w = .ident "enum" →
      (parse_ident typescript ctx inclYield inclAwait w).2.errors =
        [.invalidIdentInStrict "enum"] ∧
      (parse_ident typescript ctx inclYield inclAwait
          w).2.strictModeErrors = []) ∧
    (¬(w = .keyword .Yield ∨ w = .keyword .Let ∨ w = .ident "enum" ∨
        w = .ident "static" ∨ w = .ident "implements" ∨
        w = .ident "interface" ∨ w = .ident "package" ∨
        w = .ident "private" ∨ w = .ident "protected" ∨
        w = .ident "public") →
      (parse_ident typescript ctx inclYield inclAwait
          w).2.strictModeErrors = [] ∧
      ∀ u, SynErr.invalidIdentInStrict u ∉
        (parse_ident typescript ctx inclYield inclAwait w).2.errors) := by
  refine ⟨?_, ?_, ?_⟩
  · rintro (rfl | rfl | rfl | rfl | rfl | rfl | rfl | rfl | rfl) <;>
      simp [parse_ident, strictModePass, Word.text, Keyword.intoAtom]
  · rintro rfl
    refine ⟨?_, ?_⟩
    · simp [parse_ident, strictModePass, resolveWord]
    · simp [parse_ident, strictModePass]
  · intro hn
    push_neg at hn
    obtain ⟨hy, hl, hrest⟩ := hn
    have hsp : strictModePass w = Emitted.none := by
      cases w with
      | ident t =>
        simp only [ne_eq, Word.ident.injEq] at hrest
        simp [strictModePass, hrest.1, hrest.2.1, hrest.2.2.1,
          hrest.2.2.2.1, hrest.2.2.2.2.1, hrest.2.2.2.2.2.1,
          hrest.2.2.2.2.2.2, Emitted.none]
      | keyword k => cases k <;> simp_all [strictModePass]
      | wNull => rfl
      | wTrue => rfl
      | wFalse => rfl
    constructor
    · simp [parse_ident, hsp, Emitted.none]
    · intro u
      simp only [parse_ident, hsp, Emitted.none, List.nil_append]
      exact invalidIdentInStrict_not_mem_resolveWord typescript ctx
        inclYield inclAwait w u

/-- Witness for C3 amended at the identifier token `static` and the
empty context. -/
theorem c3_strict_mode_pass_witness :
    (parse_ident false Context.empty true true
      (.ident "static")).2.strictModeErrors =
      [.invalidIdentInStrict "static"] :=
  (c3_strict_mode_pass false Context.empty true true (.ident "static")
      "static" rfl).1
    (Or.inr (Or.inr (Or.inl rfl)))

/-- C6: when none of the higher-priority `await` context rules applies
(`InDeclare`, `InStaticBlock`, `Module`, `InAsync` all clear),
`parse_ident` on the keyword `yield` succeeds with "yield" iff
`allow_yield` is set and on the keyword `await` succeeds with "await"
iff `allow_await` is set, failing with `ExpectedIdent` otherwise; every
keyword with no earlier special arm, and the `null`/`true`/`false`
literal words, are fatal with `ExpectedIdent`. -/
theorem c6_yield_await_permissions (typescript : Bool) (ctx : Context)
    (inclYield inclAwait : Bool)
    (h1 : ctx.inDeclare = false) (h2 : ctx.inStaticBlock = false)
    (h3 : ctx.module = false) (h4 : ctx.inAsync = false) :
    ((parse_ident typescript ctx inclYield inclAwait (.keyword .Yield)).1 =
      if inclYield then .ok "yield" else .error .expectedIdent) ∧
    ((parse_ident typescript ctx inclYield inclAwait (.keyword .Await)).1 =
      if inclAwait then .ok "await" else .error .expectedIdent) ∧
    (∀ k : Keyword, k ≠ .Await → k ≠ .Yield → k ≠ .Let → k ≠ .This →
      (parse_ident typescript ctx inclYield inclAwait (.keyword k)).1 =
        .error .expectedIdent) ∧
    ((parse_ident typescript ctx inclYield inclAwait .wNull).1 =
      .error .expectedIdent) ∧
    ((parse_ident typescript ctx inclYield inclAwait .wTrue).1 =
      .error .expectedIdent) ∧
    ((parse_ident typescript ctx inclYield inclAwait .wFalse).1 =
      .error .expectedIdent) := by
  refine ⟨?_, ?_, ?_, ?_, ?_, ?_⟩
  · cases inclYield <;> simp [parse_ident, resolveWord]
  · cases inclAwait <;> simp [parse_ident, resolveWord, h1, h2, h3, h4]
  · intro k ka ky kl kt
    cases k <;> simp_all [parse_ident, resolveWord]
  · simp [parse_ident, resolveWord]
  · simp [parse_ident, resolveWord]
  · simp [parse_ident, resolveWord]

/-- Witness for C6 at the empty context with `allow_yield` granted and
`allow_await` denied, exercising `yield`, `await` and a keyword with no
special arm. -/
theorem c6_yield_await_permissions_witness :
    (parse_ident false Context.empty true false (.keyword .Yield)).1 =
      .ok "yield" ∧
    (parse_ident false Context.empty true false (.keyword .Await)).1 =
      .error .expectedIdent ∧
    (parse_ident false Context.empty true false (.keyword .Class)).1 =
      .error .expectedIdent := by
  have h := c6_yield_await_permissions false Context.empty true false
    rfl rfl rfl rfl
  exact ⟨by simpa using h.1, by simpa using h.2.1,
    h.2.2.1 .Class (by decide) (by decide) (by decide) (by decide)⟩

/-- C7: `parse_ident` on a plain identifier token always succeeds with
the token's text, and the non-blocking `ArgumentsInClassField`
diagnostic is recorded (exactly once, on the unconditional channel)
precisely when `Context.InClassField` is set and the text is exactly
"arguments". -/
theorem c7_arguments_in_class_field (typescript : Bool) (ctx : Context)
    (inclYield inclAwait : Bool) (t : String) :
    (parse_ident typescript ctx inclYield inclAwait (.ident t)).1 =
      .ok t ∧
    ((parse_ident typescript ctx inclYield inclAwait
        (.ident t)).2.errors.count .argumentsInClassField =
      if ctx.inClassField = true ∧ t = "arguments" then 1 else 0) := by
  constructor
  · simp only [parse_ident, resolveWord]
    split <;> rfl
  · simp only [parse_ident, strictModePass, resolveWord, Emitted.none]
    split_ifs <;>
      simp_all [List.count_append, List.count_cons, List.count_nil]

/-- C8: `parse_private_name` with a nonzero gap between the `#` sigil
and the following token fails fatally with `SpaceBetweenHashAndIdent`
before consuming the name; with a zero gap it accepts any word-shaped
token (keywords included) as the name, resolving to the token's text,
with no diagnostic on either channel. -/
theorem c8_private_name (inType : Bool) (gap : Nat) (tok : Token) :
    (gap ≠ 0 →
      parse_private_name inType gap tok =
        (.error .spaceBetweenHashAndIdent, Emitted.none)) ∧
    (gap = 0 → ∀ w : Word, tok = .word w →
      parse_private_name inType gap tok =
        (.ok ⟨w.text⟩, Emitted.none)) := by
  constructor
  · intro h
    simp [parse_private_name, h]
  · rintro rfl w rfl
    simp [parse_private_name, parse_ident_name, Except.map]

/-- Witness for C8: a one-byte gap before `foo` fails; `#yield` with a
zero gap succeeds as the private name "yield" with no strict-mode
diagnostic. -/
theorem c8_private_name_witness :
    parse_private_name false 1 (.word (.ident "foo")) =
      (.error .spaceBetweenHashAndIdent, Emitted.none) ∧
    parse_private_name false 0 (.word (.keyword .Yield)) =
      (.ok ⟨"yield"⟩, Emitted.none) :=
  ⟨(c8_private_name false 1 (.word (.ident "foo"))).1 (by decide),
   (c8_private_name false 0 (.word (.keyword .Yield))).2 rfl
     (.keyword .Yield) rfl⟩

/-- C9: `parse_module_export_name` returns the string variant on a
string-literal token, the identifier variant (through the
keyword-permissive identifier-name path) on any word token, and is
fatal with "Unexpected token, expected identifier or string" on every
other token shape. -/
theorem c9_module_export_name (inType : Bool) (tok : Token) :
    (∀ v, tok = .str v →
      parse_module_export_name inType tok =
        (.ok (.strName v), Emitted.none)) ∧
    (∀ w, tok = .word w →
      parse_module_export_name inType tok =
        (.ok (.identName w.text), Emitted.none)) ∧
    ((∀ v, tok ≠ .str v) → (∀ w, tok ≠ .word w) →
      parse_module_export_name inType tok =
        (.error (.unexpectedToken "identifier or string"), Emitted.none)) := by
  refine ⟨?_, ?_, ?_⟩
  · rintro v rfl
    simp [parse_module_export_name]
  · rintro w rfl
    simp [parse_module_export_name, parse_ident_name, Except.map]
  · intro hs hw
    cases tok with
    | str v => exact absurd rfl (hs v)
    | word w => exact absurd rfl (hw w)
    | jsxName n => rfl
    | num v => rfl
    | other => rfl

/-- Witness for C9: a string literal, the keyword `default` as a word
token, and a numeric literal. -/
theorem c9_module_export_name_witness :
    parse_module_export_name false (.str "x") =
      (.ok (.strName "x"), Emitted.none) ∧
    parse_module_export_name false (.word (.keyword .Default)) =
      (.ok (.identName "default"), Emitted.none) ∧
    parse_module_export_name false (.num 1) =
      (.error (.unexpectedToken "identifier or string"), Emitted.none) :=
  ⟨(c9_module_export_name false (.str "x")).1 "x" rfl,
   (c9_module_export_name false (.word (.keyword .Default))).2.1
     (.keyword .Default) rfl,
   (c9_module_export_name false (.num 1)).2.2
     (fun _ h => Token.noConfusion h) (fun _ h => Token.noConfusion h)⟩

end Ident
